import Mathlib

/-!
Verification of the watermark-removal web application.

The development shallowly embeds the three source files of the repository:

* the remote-service module (functions `removeWatermarkFromImage` and
  `generateVideoFromFrame`),
* the file utilities module (function `extractFirstFrame`), and
* the application component (handler `handleReset`).

Remote services, the browser media pipeline and `fetch` are modelled as
explicit environments supplying the values the host would produce, so that
every embedded function is an executable Lean function of the code's inputs
plus such an environment.
-/

/-! Section: String `includes` (JavaScript `String.prototype.includes`) -/

/-- Boolean test that `pat` is a prefix of `s` (on character lists). -/
def strStartsAt : List Char → List Char → Bool
  | [], _ => true
  | _ :: _, [] => false
  | a :: as, b :: bs => a == b && strStartsAt as bs

/-- Boolean test that `pat` occurs contiguously inside `s` (on character lists). -/
def listIncludes (pat : List Char) : List Char → Bool
  | [] => strStartsAt pat []
  | b :: bs => strStartsAt pat (b :: bs) || listIncludes pat bs

/-- Embedding of JavaScript `s.includes(pat)` for strings. -/
def strIncludes (s pat : String) : Bool :=
  listIncludes pat.toList s.toList

/-! Section: Image-editing service model (`removeWatermarkFromImage`) -/

/-- The `ImageData` interface of the service module: base64 payload plus mime type. -/
structure ImgData where
  data : String
  mimeType : String
deriving DecidableEq

/-- An `inlineData` member of a response part. -/
structure InlineData where
  data : String
  mimeType : String
deriving DecidableEq

/-- One part of the response content: optional inline image data, optional text. -/
structure RespPart where
  inlineData : Option InlineData
  text : Option String
deriving DecidableEq

/-- The `content` member of a candidate; its `parts` list may be absent. -/
structure Content where
  parts : Option (List RespPart)
deriving DecidableEq

/-- One response candidate; its `content` may be absent. -/
structure Candidate where
  content : Option Content
deriving DecidableEq

/-- The `generateContent` response shape; its `candidates` list may be absent. -/
structure GenContentResponse where
  candidates : Option (List Candidate)
deriving DecidableEq

/-- Environment for the image-editing call: the ambient API key
(`process.env.API_KEY`) and the remote `generateContent` behaviour, which
either throws (an error message) or returns a response for the request image. -/
structure GeminiEnv where
  apiKey : Option String
  genContent : ImgData → Except String GenContentResponse

/-- Embedding of `response.candidates?.[0]?.content?.parts || []`:
optional chaining over the first candidate, defaulting to the empty list. -/
def partsOfResponse (r : GenContentResponse) : List RespPart :=
  match r.candidates with
  | none => []
  | some cs =>
    match cs.head? with
    | none => []
    | some c =>
      match c.content with
      | none => []
      | some ct =>
        match ct.parts with
        | none => []
        | some ps => ps

/-- Embedding of the `for (const part of ...)` loop: return the `data` of the
first part carrying `inlineData`, else fall through. -/
def scanParts : List RespPart → Option String
  | [] => none
  | p :: ps =>
    match p.inlineData with
    | some d => some d.data
    | none => scanParts ps

/-- Embedding of `removeWatermarkFromImage`.  Missing API key throws before the
try block; a service error is caught and rethrown as the fixed generic message;
a successful response is scanned for the first inline-data part, `null`
(here `none`) when no part qualifies. -/
def removeWatermarkFromImage (env : GeminiEnv) (imageData : ImgData) :
    Except String (Option String) :=
  match env.apiKey with
  | none => .error "API_KEY environment variable is not set"
  | some _ =>
    match env.genContent imageData with
    | .error _ => .error "Failed to process image with Gemini API."
    | .ok response => .ok (scanParts (partsOfResponse response))

/-- Embedding of the image-path result URL construction in
`handleRemoveImageWatermark`: on a non-null result the processed image URL is
`data:` + input mime type + `;base64,` + returned bytes; otherwise no URL is
committed (the handler throws and the catch only sets an error message). -/
def imageResultUrl (env : GeminiEnv) (fileData fileMime : String) : Option String :=
  match removeWatermarkFromImage env ⟨fileData, fileMime⟩ with
  | .ok (some clean) => some ("data:" ++ fileMime ++ ";base64," ++ clean)
  | _ => none

/-- Embedding of the seed image handed to `generateVideoFromFrame` by
`handleRemoveVideoWatermark`: the cleaned frame bytes are paired with the
extracted frame's mime type (`frameMimeType`), not a service-reported one. -/
def videoSeedImage (env : GeminiEnv) (frameData frameMime : String) : Option ImgData :=
  match removeWatermarkFromImage env ⟨frameData, frameMime⟩ with
  | .ok (some clean) => some ⟨clean, frameMime⟩
  | _ => none

/-! Section: Video-generation service model (`generateVideoFromFrame`) -/

/-- The `video` member of a generated-video entry; its `uri` may be absent. -/
structure VideoRef where
  uri : Option String
deriving DecidableEq

/-- One entry of `generatedVideos`; its `video` member may be absent. -/
structure GeneratedVideo where
  video : Option VideoRef
deriving DecidableEq

/-- The `response` member of a completed operation; `generatedVideos` may be
absent. -/
structure VeoResponse where
  generatedVideos : Option (List GeneratedVideo)
deriving DecidableEq

/-- A video-generation operation handle as the client sees it: the `done`
flag and, possibly, a response. -/
structure VeoOp where
  done : Bool
  response : Option VeoResponse
deriving DecidableEq

/-- Embedding of `operation.response?.generatedVideos?.[0]?.video?.uri`. -/
def downloadLinkOf (op : VeoOp) : Option String :=
  match op.response with
  | none => none
  | some r =>
    match r.generatedVideos with
    | none => none
    | some gs =>
      match gs.head? with
      | none => none
      | some g =>
        match g.video with
        | none => none
        | some v => v.uri

/-- A `fetch` response: `ok` flag, numeric `status`, `text()` body and the
`blob()` payload (kept as a string of bytes). -/
structure FetchResponse where
  ok : Bool
  status : Nat
  body : String
  blobData : String
deriving DecidableEq

/-- Environment for one run of `generateVideoFromFrame`: the ambient API key,
the remote `generateVideos` submission (taking the derived aspect preset and
either throwing or returning the initial operation), the successive
`getVideosOperation` results (the result of the `i`-th status query, which may
also throw), and `fetch` on the download URL (throwing means a network
error). -/
structure VeoEnv where
  apiKey : Option String
  submit : String → Except String VeoOp
  pollRes : Nat → Except String VeoOp
  fetchRes : String → Except String FetchResponse

/-- Embedding of `const aspectRatio = ratio > 1 ? '16:9' : '9:16'` with
`ratio = width / height` computed in exact (rational) arithmetic. -/
def deriveAspect (width height : ℚ) : String :=
  if width / height > 1 then "16:9" else "9:16"

/-- Observable events of the polling loop: the fixed suspension
(`setTimeout`, in milliseconds) and a status query (`getVideosOperation`). -/
inductive PollEvent where
  | sleep (ms : Nat)
  | query
deriving DecidableEq

/-- Number of status queries recorded in a poll trace. -/
def countQueries (tr : List PollEvent) : Nat :=
  tr.countP fun e => match e with | PollEvent.query => true | _ => false

/-- Embedding of the `while (!operation.done)` loop.  Each iteration suspends
10000 ms and re-queries; `next i` is the result of the `i`-th query.  `fuel`
bounds the modelled iterations: `none` means the loop has not terminated
within `fuel` iterations (the source loop is unbounded).  On termination the
trace of suspensions and queries is returned together with the final
operation, or with the error thrown by a query. -/
def pollLoop (next : Nat → Except String VeoOp) :
    Nat → Nat → VeoOp → Option (List PollEvent × Except String VeoOp)
  | 0, _, op => if op.done then some ([], .ok op) else none
  | fuel + 1, i, op =>
    if op.done then some ([], .ok op)
    else
      match next i with
      | .error msg => some ([PollEvent.sleep 10000, PollEvent.query], .error msg)
      | .ok op2 =>
        match pollLoop next fuel (i + 1) op2 with
        | none => none
        | some (tr, res) => some (PollEvent.sleep 10000 :: PollEvent.query :: tr, res)

/-- Stages of the `try` block of `generateVideoFromFrame` at which an error
can be thrown: the submission call, a polling query, the missing-download-link
check, the `fetch` itself, and the non-ok download response. -/
inductive VeoStage where
  | submit
  | poll
  | missingLink
  | fetch
  | download
deriving DecidableEq

/-- The fixed error message thrown when a done operation carries no
download link. -/
def missingLinkMsg : String :=
  "Video generation succeeded, but no download link was provided."

/-- The error message thrown on a non-ok download response (carries the
numeric status only; the body is only logged). -/
def downloadFailMsg (status : Nat) : String :=
  "Failed to download the generated video. Status: " ++ Nat.repr status

/-- Embedding of the `try` block of `generateVideoFromFrame`: submission,
polling loop, download-link check, authenticated fetch and blob extraction.
Errors are tagged with the stage that threw them; the tag is invisible to the
catch handler, which only reads the message.  `none` means the polling loop
did not terminate within `fuel` iterations. -/
def runTry (env : VeoEnv) (apiKey : String) (width height : ℚ) (fuel : Nat) :
    Option (List PollEvent × Except (VeoStage × String) String) :=
  match env.submit (deriveAspect width height) with
  | .error msg => some ([], .error (VeoStage.submit, msg))
  | .ok op0 =>
    match pollLoop env.pollRes fuel 0 op0 with
    | none => none
    | some (tr, .error msg) => some (tr, .error (VeoStage.poll, msg))
    | some (tr, .ok opF) =>
      match downloadLinkOf opF with
      | none => some (tr, .error (VeoStage.missingLink, missingLinkMsg))
      | some link =>
        match env.fetchRes (link ++ "&key=" ++ apiKey) with
        | .error msg => some (tr, .error (VeoStage.fetch, msg))
        | .ok resp =>
          if resp.ok then some (tr, .ok resp.blobData)
          else some (tr, .error (VeoStage.download, downloadFailMsg resp.status))

/-- The marker substring the catch handler looks for in a caught error's
message. -/
def entityMarker : String := "Requested entity was not found"

/-- Embedding of the catch handler of `generateVideoFromFrame`: a caught
error whose message includes the entity-not-found marker is rethrown as
`API_KEY_INVALID`; any other caught error is rethrown as the generic Veo
failure message. -/
def classifyCaught (msg : String) : String :=
  if strIncludes msg entityMarker then "API_KEY_INVALID"
  else "Failed to process video with Veo API."

/-- Embedding of `generateVideoFromFrame`, keeping the poll trace.  A missing
API key throws before the try block (uncaught by the handler); otherwise the
try block runs and any error it throws is reclassified by the catch
handler. -/
def generateVideoFromFrameT (env : VeoEnv) (width height : ℚ) (fuel : Nat) :
    Option (List PollEvent × Except String String) :=
  match env.apiKey with
  | none => some ([], .error "API_KEY environment variable is not set")
  | some key =>
    match runTry env key width height fuel with
    | none => none
    | some (tr, .ok blob) => some (tr, .ok blob)
    | some (tr, .error (_, msg)) => some (tr, .error (classifyCaught msg))

/-- Embedding of `generateVideoFromFrame` as seen by its caller (trace
erased). -/
def generateVideoFromFrame (env : VeoEnv) (width height : ℚ) (fuel : Nat) :
    Option (Except String String) :=
  (generateVideoFromFrameT env width height fuel).map Prod.snd

/-- Characterisation of a terminating polling run of `n` queries starting at
query index `i` on current operation `op`: with zero queries the current
operation is already done and is returned; with `n + 1` queries the current
operation is not done, and the first query either throws (ending the run) or
yields the operation the remaining `n` queries run on. -/
def stepsOk (next : Nat → Except String VeoOp) :
    Nat → VeoOp → Nat → Except String VeoOp → Prop
  | _, op, 0, res => op.done = true ∧ res = .ok op
  | i, op, Nat.succ n, res =>
    op.done = false ∧
      (match next i with
       | .error msg => n = 0 ∧ res = .error msg
       | .ok op2 => stepsOk next (i + 1) op2 n res)

/-- The operation current after `k` successful queries starting at index `i`
from `op`; `none` if some of those queries threw. -/
def opSeqAt (next : Nat → Except String VeoOp) : Nat → VeoOp → Nat → Option VeoOp
  | _, op, 0 => some op
  | i, _, Nat.succ k =>
    match next i with
    | .error _ => none
    | .ok op2 => opSeqAt next (i + 1) op2 k

/-! Section: Frame extractor model (`extractFirstFrame`) -/

/-- Asynchronous events delivered to the handlers installed by
`extractFirstFrame`: `loadeddata`, `seeked`, a media `error` event, and the
rejection of the `video.play()` promise. -/
inductive MediaEvent where
  | loadeddata
  | seeked
  | mediaError (msg : String)
  | playRejected (msg : String)
deriving DecidableEq

/-- Host context of one extraction: the video element's intrinsic pixel
dimensions, whether `canvas.getContext('2d')` succeeds, and the base64 payload
produced by `canvas.toDataURL('image/jpeg', 0.9)`. -/
structure ExtractCtx where
  videoWidth : Nat
  videoHeight : Nat
  ctxAvailable : Bool
  encodedData : String
deriving DecidableEq

/-- The value `extractFirstFrame` resolves with, instrumented with
`captureTime`: the video element's `currentTime` at the moment the frame is
drawn onto the canvas. -/
structure FrameResult where
  data : String
  mimeType : String
  width : Nat
  height : Nat
  captureTime : ℚ
deriving DecidableEq

/-- Mutable state of one `extractFirstFrame` call: the `resolved` guard flag,
the video element's `currentTime`, the promise's settled value (`none` while
pending; a promise settles at most once, later resolutions and rejections are
no-ops), and instrumentation counting how many completion-handler bodies ran
past the guard (`settleRuns`) and how many of those were the `onseeked`
body (`seekedRuns`). -/
structure ExtractState where
  resolved : Bool
  currentTime : ℚ
  outcome : Option (Except String FrameResult)
  settleRuns : Nat
  seekedRuns : Nat

/-- Promise settlement: the first settled value wins, later ones are
discarded. -/
def commitOutcome (old : Option (Except String FrameResult))
    (new : Except String FrameResult) : Option (Except String FrameResult) :=
  match old with
  | some r => some r
  | none => some new

/-- One event dispatch of `extractFirstFrame`.  `onloadeddata` sets
`currentTime := 0.1`.  `onseeked` returns early when `resolved` is set,
otherwise sets it, draws the frame at the current time and resolves (or
rejects when no 2d context is available).  The `onerror` and play-rejection
handlers return early when `resolved` is set but do not set it themselves;
past the guard they clean up and reject. -/
def stepEvent (c : ExtractCtx) (s : ExtractState) : MediaEvent → ExtractState
  | MediaEvent.loadeddata => { s with currentTime := 1 / 10 }
  | MediaEvent.seeked =>
    if s.resolved then s
    else if c.ctxAvailable then
      { s with
        resolved := true
        outcome := commitOutcome s.outcome
          (.ok ⟨c.encodedData, "image/jpeg", c.videoWidth, c.videoHeight, s.currentTime⟩)
        settleRuns := s.settleRuns + 1
        seekedRuns := s.seekedRuns + 1 }
    else
      { s with
        resolved := true
        outcome := commitOutcome s.outcome (.error "Could not get canvas context.")
        settleRuns := s.settleRuns + 1
        seekedRuns := s.seekedRuns + 1 }
  | MediaEvent.mediaError msg =>
    if s.resolved then s
    else
      { s with
        outcome := commitOutcome s.outcome (.error msg)
        settleRuns := s.settleRuns + 1 }
  | MediaEvent.playRejected msg =>
    if s.resolved then s
    else
      { s with
        outcome := commitOutcome s.outcome (.error msg)
        settleRuns := s.settleRuns + 1 }

/-- State of the extraction right after the synchronous set-up: guard unset,
`currentTime` at its default `0`, promise pending. -/
def initExtract : ExtractState :=
  { resolved := false, currentTime := 0, outcome := none, settleRuns := 0, seekedRuns := 0 }

/-- One run of `extractFirstFrame` under a given sequence of delivered
events. -/
def runExtract (c : ExtractCtx) (evts : List MediaEvent) : ExtractState :=
  evts.foldl (stepEvent c) initExtract

/-- A `loadeddata` event is delivered before the first `seeked` event — the
behaviour of any decodable video, since the only seek is requested by the
`onloadeddata` handler. -/
def loadBeforeSeek : List MediaEvent → Bool
  | [] => true
  | MediaEvent.loadeddata :: _ => true
  | MediaEvent.seeked :: _ => false
  | _ :: rest => loadBeforeSeek rest

/-! Section: Application reset model (`handleReset`) -/

/-- The asset-related state of the `App` component: the four nullable asset
fields (object URLs held for display), the error message, the loading flag
and the video progress label. -/
structure AppAssets where
  originalImage : Option String
  processedImageUrl : Option String
  originalVideo : Option String
  processedVideoUrl : Option String
  error : Option String
  isLoading : Bool
  videoLoadingMessage : String
deriving DecidableEq

/-- The idle state: no assets, no error, not loading, empty progress label. -/
def idleAssets : AppAssets :=
  { originalImage := none, processedImageUrl := none, originalVideo := none,
    processedVideoUrl := none, error := none, isLoading := false,
    videoLoadingMessage := "" }

/-- The object URLs a state holds (in the order `handleReset` revokes
them). -/
def heldUrls (s : AppAssets) : List String :=
  s.originalImage.toList ++ s.processedImageUrl.toList ++
    s.originalVideo.toList ++ s.processedVideoUrl.toList

/-- Embedding of `handleReset`: revoke each held object URL (second
component: the URLs passed to `URL.revokeObjectURL`, in order) and clear
every field. -/
def handleReset (s : AppAssets) : AppAssets × List String :=
  ((match s.originalImage with | some u => [u] | none => []) ++
   (match s.processedImageUrl with | some u => [u] | none => []) ++
   (match s.originalVideo with | some u => [u] | none => []) ++
   (match s.processedVideoUrl with | some u => [u] | none => []) |>
   fun revoked =>
     ({ originalImage := none, processedImageUrl := none, originalVideo := none,
        processedVideoUrl := none, error := none, isLoading := false,
        videoLoadingMessage := "" }, revoked))

/-! Section: Concrete inputs used by the witnesses and counterexamples -/

/-- A done operation exposing a download link. -/
def opWithLink : VeoOp :=
  { done := true,
    response := some { generatedVideos := some [{ video := some { uri := some "https://dl" } }] } }

/-- A done operation exposing no response at all (hence no download link). -/
def opNoLink : VeoOp := { done := true, response := none }

/-- A not-yet-done operation. -/
def opPending : VeoOp := { done := false, response := none }

/-- A successful fetch response with payload `"vid"`. -/
def fetchOkResp : FetchResponse := { ok := true, status := 200, body := "", blobData := "vid" }

/-- Environment whose submission returns an already-done operation with a
link, so that the whole call succeeds with zero status queries. -/
def envC1x : VeoEnv :=
  { apiKey := some "k",
    submit := fun _ => .ok opWithLink,
    pollRes := fun _ => .error "never polled",
    fetchRes := fun _ => .ok fetchOkResp }

/-- Environment whose submission returns a pending operation and whose first
status query returns a done operation with a link. -/
def envC1w : VeoEnv :=
  { apiKey := some "k",
    submit := fun _ => .ok opPending,
    pollRes := fun _ => .ok opWithLink,
    fetchRes := fun _ => .ok fetchOkResp }

/-- Environment whose submission throws the service's entity-not-found
error. -/
def envC3w : VeoEnv :=
  { apiKey := some "k",
    submit := fun _ => .error "got status: 404 . Requested entity was not found.",
    pollRes := fun _ => .error "never polled",
    fetchRes := fun _ => .ok fetchOkResp }

/-- A response whose first candidate's parts are a text part followed by an
inline-image part. -/
def respC4 : GenContentResponse :=
  { candidates := some
      [{ content := some
          { parts := some
              [{ inlineData := none, text := some "note" },
               { inlineData := some { data := "IMG64", mimeType := "image/png" }, text := none }] } }] }

/-- Image-editing environment returning `respC4` for every request. -/
def envC4w : GeminiEnv :=
  { apiKey := some "k", genContent := fun _ => .ok respC4 }

/-- Environment whose submission returns a done operation without a download
link. -/
def envC5x : VeoEnv :=
  { apiKey := some "k",
    submit := fun _ => .ok opNoLink,
    pollRes := fun _ => .error "never polled",
    fetchRes := fun _ => .ok fetchOkResp }

/-- Environment whose submission returns a done operation without a download
link (witness copy for the amended statement). -/
def envC5w : VeoEnv :=
  { apiKey := some "k",
    submit := fun _ => .ok opNoLink,
    pollRes := fun _ => .error "never polled",
    fetchRes := fun _ => .ok fetchOkResp }

/-- Extraction context of a 1920 by 1080 video with a working 2d context. -/
def ctxC6w : ExtractCtx :=
  { videoWidth := 1920, videoHeight := 1080, ctxAvailable := true, encodedData := "F64" }

/-- Extraction context used in the guard counterexample. -/
def ctxC7x : ExtractCtx :=
  { videoWidth := 640, videoHeight := 480, ctxAvailable := true, encodedData := "F64" }

/-- Extraction context used in the single-commit witness. -/
def ctxC7w : ExtractCtx :=
  { videoWidth := 640, videoHeight := 480, ctxAvailable := true, encodedData := "F64" }

/-- A response carrying no candidates list at all. -/
def respC9 : GenContentResponse := { candidates := none }

/-- Image-editing environment returning `respC9` for every request. -/
def envC9w : GeminiEnv :=
  { apiKey := some "k", genContent := fun _ => .ok respC9 }

/-- A response whose only part is inline-image data with a mime type that
differs from any input mime type. -/
def respC10 : GenContentResponse :=
  { candidates := some
      [{ content := some
          { parts := some
              [{ inlineData := some { data := "CLEAN64", mimeType := "image/webp" }, text := none }] } }] }

/-- Image-editing environment returning `respC10` for every request. -/
def envC10w : GeminiEnv :=
  { apiKey := some "k", genContent := fun _ => .ok respC10 }

/-! Section: Lemmas about the response-part scan -/

/-- The scan skips every part without inline data and returns the data of the
first part that carries some. -/
theorem scanParts_found (l1 : List RespPart) (p : RespPart) (l2 : List RespPart)
    (d : InlineData) (h1 : ∀ q ∈ l1, q.inlineData = none)
    (hp : p.inlineData = some d) :
    scanParts (l1 ++ p :: l2) = some d.data := by
  induction l1 with
  | nil => simp [scanParts, hp]
  | cons q l1 ih =>
    have hq : q.inlineData = none := h1 q (by simp)
    simp only [List.cons_append, scanParts, hq]
    exact ih fun r hr => h1 r (by simp [hr])

/-- The scan of a list with no inline data anywhere yields `none`. -/
theorem scanParts_none (l : List RespPart) (h : ∀ q ∈ l, q.inlineData = none) :
    scanParts l = none := by
  induction l with
  | nil => rfl
  | cons q l ih =>
    have hq : q.inlineData = none := h q (by simp)
    simp only [scanParts, hq]
    exact ih fun r hr => h r (by simp [hr])

/-- Claim C4 (confirmed): for every successful remote response,
`removeWatermarkFromImage` returns the data of the first response part that is
image data, and when no part is image data it returns the explicit `null`
value (`none`), which is distinct from an error and from an empty success. -/
theorem C4_first_image_part (env : GeminiEnv) (img : ImgData) (k : String)
    (resp : GenContentResponse) (hk : env.apiKey = some k)
    (hr : env.genContent img = .ok resp) :
    (∀ l1 p l2 d, partsOfResponse resp = l1 ++ p :: l2 →
        (∀ q ∈ l1, q.inlineData = none) → p.inlineData = some d →
        removeWatermarkFromImage env img = .ok (some d.data))
    ∧ ((∀ q ∈ partsOfResponse resp, q.inlineData = none) →
        removeWatermarkFromImage env img = .ok (none : Option String))
    ∧ (∀ e : String, (.ok (none : Option String) : Except String (Option String)) ≠ .error e)
    ∧ ((.ok (none : Option String) : Except String (Option String)) ≠ .ok (some "")) := by
  have hres : removeWatermarkFromImage env img = .ok (scanParts (partsOfResponse resp)) := by
    unfold removeWatermarkFromImage
    rw [hk, hr]
  refine ⟨?_, ?_, ?_, ?_⟩
  · intro l1 p l2 d hsplit h1 hp
    rw [hres, hsplit, scanParts_found l1 p l2 d h1 hp]
  · intro hall
    rw [hres, scanParts_none _ hall]
  · intro e h
    exact Except.noConfusion h
  · intro h
    simp at h

/-- Witness for C4: on a response whose parts are a text part followed by an
inline-image part, the call returns the image part's data. -/
theorem C4_first_image_part_witness :
    removeWatermarkFromImage envC4w ⟨"in64", "image/png"⟩ = .ok (some "IMG64") :=
  (C4_first_image_part envC4w ⟨"in64", "image/png"⟩ "k" respC4 rfl rfl).1
    [{ inlineData := none, text := some "note" }]
    { inlineData := some { data := "IMG64", mimeType := "image/png" }, text := none }
    [] { data := "IMG64", mimeType := "image/png" } rfl (by decide) rfl

/-- Claim C9 (confirmed): `removeWatermarkFromImage` is total over arbitrary
response shapes — any successful response yields a non-throwing scan of the
first candidate's parts only, and missing candidates, content or parts yield
`null`. -/
theorem C9_total_first_candidate (env : GeminiEnv) (img : ImgData) (k : String)
    (hk : env.apiKey = some k) :
    (∀ resp, env.genContent img = .ok resp →
        removeWatermarkFromImage env img = .ok (scanParts (partsOfResponse resp)))
    ∧ (∀ c cs cs2, partsOfResponse ⟨some (c :: cs)⟩ = partsOfResponse ⟨some (c :: cs2)⟩)
    ∧ partsOfResponse ⟨none⟩ = []
    ∧ partsOfResponse ⟨some []⟩ = []
    ∧ (∀ cs, partsOfResponse ⟨some ({ content := none } :: cs)⟩ = [])
    ∧ (∀ cs, partsOfResponse ⟨some ({ content := some { parts := none } } :: cs)⟩ = [])
    ∧ (env.genContent img = .ok ⟨none⟩ →
        removeWatermarkFromImage env img = .ok (none : Option String)) := by
  refine ⟨?_, ?_, rfl, rfl, fun cs => rfl, fun cs => rfl, ?_⟩
  · intro resp hr
    unfold removeWatermarkFromImage
    rw [hk, hr]
  · intro c cs cs2
    rfl
  · intro hr
    unfold removeWatermarkFromImage
    rw [hk, hr]
    rfl

/-- Witness for C9: a response with no candidates list yields `null`. -/
theorem C9_total_first_candidate_witness :
    removeWatermarkFromImage envC9w ⟨"d64", "image/png"⟩ = .ok (none : Option String) :=
  (C9_total_first_candidate envC9w ⟨"d64", "image/png"⟩ "k" rfl).2.2.2.2.2.2 rfl

/-- Claim C10 (confirmed): the mime type attached to the output equals the
input's mime type — the scan returns the result bytes only (the service's
reported mime type is discarded), the image path builds the result URL from
the input mime type, and the video path hands the generation stage the
cleaned bytes tagged with the extracted frame's mime type. -/
theorem C10_mime_passthrough (env : GeminiEnv)
    (fileData fileMime frameData frameMime d mt : String) (t : Option String)
    (rest : List RespPart) :
    scanParts ({ inlineData := some { data := d, mimeType := mt }, text := t } :: rest) = some d
    ∧ (∀ u, imageResultUrl env fileData fileMime = some u →
        ∃ clean, removeWatermarkFromImage env ⟨fileData, fileMime⟩ = .ok (some clean)
          ∧ u = "data:" ++ fileMime ++ ";base64," ++ clean)
    ∧ (∀ img2, videoSeedImage env frameData frameMime = some img2 →
        img2.mimeType = frameMime
          ∧ removeWatermarkFromImage env ⟨frameData, frameMime⟩ = .ok (some img2.data)) := by
  refine ⟨rfl, ?_, ?_⟩
  · intro u hu
    unfold imageResultUrl at hu
    rcases hres : removeWatermarkFromImage env ⟨fileData, fileMime⟩ with e | o
    · rw [hres] at hu
      exact absurd hu (by simp)
    · rcases o with _ | clean
      · rw [hres] at hu
        exact absurd hu (by simp)
      · rw [hres] at hu
        exact ⟨clean, rfl, by simpa using hu.symm⟩
  · intro img2 h2
    unfold videoSeedImage at h2
    rcases hres : removeWatermarkFromImage env ⟨frameData, frameMime⟩ with e | o
    · rw [hres] at h2
      exact absurd h2 (by simp)
    · rcases o with _ | clean
      · rw [hres] at h2
        exact absurd h2 (by simp)
      · rw [hres] at h2
        have : img2 = ⟨clean, frameMime⟩ := by simpa using h2.symm
        subst this
        exact ⟨rfl, rfl⟩

/-- Witness for C10: with an input mime type `image/png` and a service
response reporting `image/webp`, the produced URL is tagged `image/png`. -/
theorem C10_mime_passthrough_witness :
    ∃ clean, removeWatermarkFromImage envC10w ⟨"f64", "image/png"⟩ = .ok (some clean)
      ∧ "data:image/png;base64,CLEAN64" = "data:" ++ "image/png" ++ ";base64," ++ clean :=
  (C10_mime_passthrough envC10w "f64" "image/png" "fr64" "image/jpeg" "x" "y" none []).2.1
    "data:image/png;base64,CLEAN64" (by decide)

/-- Claim C2 (confirmed): the aspect-ratio preset is classified by
`width / height`: a quotient above `1` yields the wide preset `16:9` and a
quotient at most `1` yields the tall preset `9:16`; in particular 1920 by 1080
is wide, 1080 by 1920 is tall, and equal dimensions are tall. -/
theorem C2_aspect_classification (w h : ℚ) :
    (w / h > 1 → deriveAspect w h = "16:9")
    ∧ (w / h ≤ 1 → deriveAspect w h = "9:16")
    ∧ deriveAspect 1920 1080 = "16:9"
    ∧ deriveAspect 1080 1920 = "9:16"
    ∧ (∀ u : ℚ, deriveAspect u u = "9:16") := by
  refine ⟨?_, ?_, by norm_num [deriveAspect], by norm_num [deriveAspect], ?_⟩
  · intro hgt
    simp [deriveAspect, hgt]
  · intro hle
    simp [deriveAspect, not_lt.mpr hle]
  · intro u
    have : ¬ (u / u > 1) := by
      rcases eq_or_ne u 0 with rfl | hu
      · norm_num
      · rw [div_self hu]
        exact lt_irrefl 1
    simp [deriveAspect, this]

/-- Witness for C2: a 2 by 1 frame is classified wide and a 1 by 2 frame
tall. -/
theorem C2_aspect_classification_witness :
    deriveAspect 2 1 = "16:9" ∧ deriveAspect 1 2 = "9:16" :=
  ⟨(C2_aspect_classification 2 1).1 (by norm_num),
   (C2_aspect_classification 1 2).2.1 (by norm_num)⟩

/-- Claim C8 (confirmed): `handleReset` from any state yields the idle state
with all asset fields cleared, releases exactly the held object URLs, and is
idempotent — resetting the resulting state changes nothing and releases
nothing further. -/
theorem C8_reset_idempotent (s : AppAssets) :
    (handleReset s).1 = idleAssets
    ∧ (handleReset s).2 = heldUrls s
    ∧ handleReset (handleReset s).1 = (idleAssets, [])
    ∧ heldUrls idleAssets = [] := by
  refine ⟨rfl, ?_, rfl, rfl⟩
  unfold handleReset heldUrls
  rcases s with ⟨oi, pi, ov, pv, e, l, m⟩
  rcases oi with _ | u1 <;> rcases pi with _ | u2 <;>
    rcases ov with _ | u3 <;> rcases pv with _ | u4 <;> rfl

/-! Section: Lemmas about `strIncludes` and the caught-error classifier -/

/-- Every character of a prefix occurrence belongs to the scanned list. -/
theorem strStartsAt_mem (pat : List Char) : ∀ s, strStartsAt pat s = true →
    ∀ c ∈ pat, c ∈ s := by
  induction pat with
  | nil => intro s _ c hc; cases hc
  | cons a as ih =>
    intro s h c hc
    cases s with
    | nil => exact Bool.noConfusion h
    | cons b bs =>
      simp only [strStartsAt, Bool.and_eq_true, beq_iff_eq] at h
      rcases List.mem_cons.mp hc with rfl | hc2
      · rw [h.1]
        exact List.mem_cons_self b bs
      · exact List.mem_cons.mpr (Or.inr (ih bs h.2 c hc2))

/-- Every character of an occurring pattern belongs to the scanned list. -/
theorem listIncludes_mem (pat : List Char) : ∀ s, listIncludes pat s = true →
    ∀ c ∈ pat, c ∈ s := by
  intro s
  induction s with
  | nil =>
    intro h c hc
    cases pat with
    | nil => cases hc
    | cons a as => exact Bool.noConfusion h
  | cons b bs ih =>
    intro h c hc
    rcases Bool.or_eq_true_iff.mp h with h2 | h2
    · exact strStartsAt_mem pat (b :: bs) h2 c hc
    · exact List.mem_cons.mpr (Or.inr (ih h2 c hc))

/-- Every character of an included substring occurs in the including
string. -/
theorem strIncludes_mem (s pat : String) (h : strIncludes s pat = true) :
    ∀ c ∈ pat.toList, c ∈ s.toList :=
  listIncludes_mem pat.toList s.toList h

/-- The function `Nat.digitChar` never produces the letter q. -/
theorem digitChar_ne_q (m : Nat) : Nat.digitChar m ≠ 'q' := by
  by_cases h : m < 16
  · interval_cases m <;> decide
  · unfold Nat.digitChar
    rw [if_neg (show m ≠ 0 by omega), if_neg (show m ≠ 1 by omega),
        if_neg (show m ≠ 2 by omega), if_neg (show m ≠ 3 by omega),
        if_neg (show m ≠ 4 by omega), if_neg (show m ≠ 5 by omega),
        if_neg (show m ≠ 6 by omega), if_neg (show m ≠ 7 by omega),
        if_neg (show m ≠ 8 by omega), if_neg (show m ≠ 9 by omega),
        if_neg (show m ≠ 10 by omega), if_neg (show m ≠ 11 by omega),
        if_neg (show m ≠ 12 by omega), if_neg (show m ≠ 13 by omega),
        if_neg (show m ≠ 14 by omega), if_neg (show m ≠ 15 by omega)]
    decide

/-- The decimal digit accumulation never produces a `'q'`. -/
theorem toDigitsCore_no_q (fuel : Nat) : ∀ (n : Nat) (ds : List Char),
    'q' ∉ ds → 'q' ∉ Nat.toDigitsCore 10 fuel n ds := by
  induction fuel with
  | zero => intro n ds h; simpa [Nat.toDigitsCore] using h
  | succ fuel ih =>
    intro n ds h
    simp only [Nat.toDigitsCore]
    split
    · intro hmem
      rcases List.mem_cons.mp hmem with h1 | h1
      · exact digitChar_ne_q _ h1.symm
      · exact h h1
    · exact ih _ _ (fun hmem => by
        rcases List.mem_cons.mp hmem with h1 | h1
        · exact digitChar_ne_q _ h1.symm
        · exact h h1)

/-- The decimal representation of a natural number contains no `'q'`. -/
theorem repr_no_q (n : Nat) : 'q' ∉ (Nat.repr n).toList := by
  show 'q' ∉ (Nat.toDigits 10 n).asString.toList
  have h : (Nat.toDigits 10 n).asString.toList = Nat.toDigits 10 n := rfl
  rw [h]
  exact toDigitsCore_no_q _ _ _ (by simp)

/-- The fixed missing-download-link message does not contain the
entity-not-found marker. -/
theorem missingLinkMsg_no_marker : strIncludes missingLinkMsg entityMarker = false := by
  decide

/-- No download-failure message, whatever the numeric status, contains the
entity-not-found marker. -/
theorem downloadFailMsg_no_marker (st : Nat) :
    strIncludes (downloadFailMsg st) entityMarker = false := by
  cases hb : strIncludes (downloadFailMsg st) entityMarker
  · rfl
  · exfalso
    have hq := strIncludes_mem _ _ hb 'q' (by decide)
    have hsplit : (downloadFailMsg st).toList
        = "Failed to download the generated video. Status: ".toList ++ (Nat.repr st).toList := rfl
    rw [hsplit] at hq
    rcases List.mem_append.mp hq with h1 | h1
    · exact absurd h1 (by decide)
    · exact repr_no_q st h1

/-- Inversion of the `try`-block run: what each error stage says about the
environment and the message. -/
theorem runTry_error_src (env : VeoEnv) (key : String) (w h : ℚ) (fuel : Nat)
    (tr : List PollEvent) (st : VeoStage) (msg : String)
    (hrun : runTry env key w h fuel = some (tr, .error (st, msg))) :
    (st = VeoStage.submit → env.submit (deriveAspect w h) = .error msg)
    ∧ (st = VeoStage.poll → ∃ op0, env.submit (deriveAspect w h) = .ok op0
        ∧ pollLoop env.pollRes fuel 0 op0 = some (tr, .error msg))
    ∧ (st = VeoStage.missingLink → msg = missingLinkMsg)
    ∧ (st = VeoStage.fetch → ∃ link, env.fetchRes link = .error msg)
    ∧ (st = VeoStage.download → ∃ link resp, env.fetchRes link = .ok resp
        ∧ resp.ok = false ∧ msg = downloadFailMsg resp.status) := by
  unfold runTry at hrun
  split at hrun
  · rename_i m heq
    simp only [Option.some.injEq, Prod.mk.injEq, Except.error.injEq] at hrun
    obtain ⟨htr, hst, hm⟩ := hrun
    subst hst hm
    exact ⟨fun _ => heq, fun hc => VeoStage.noConfusion hc, fun hc => VeoStage.noConfusion hc,
      fun hc => VeoStage.noConfusion hc, fun hc => VeoStage.noConfusion hc⟩
  · rename_i op0 heq
    split at hrun
    · exact Option.noConfusion hrun
    · rename_i tr2 m hpoll
      simp only [Option.some.injEq, Prod.mk.injEq, Except.error.injEq] at hrun
      obtain ⟨htr, hst, hm⟩ := hrun
      subst htr hst hm
      exact ⟨fun hc => VeoStage.noConfusion hc, fun _ => ⟨op0, heq, hpoll⟩,
        fun hc => VeoStage.noConfusion hc, fun hc => VeoStage.noConfusion hc,
        fun hc => VeoStage.noConfusion hc⟩
    · rename_i tr2 opF hpoll
      split at hrun
      · simp only [Option.some.injEq, Prod.mk.injEq, Except.error.injEq] at hrun
        obtain ⟨htr, hst, hm⟩ := hrun
        subst htr hst hm
        exact ⟨fun hc => VeoStage.noConfusion hc, fun hc => VeoStage.noConfusion hc,
          fun _ => rfl, fun hc => VeoStage.noConfusion hc, fun hc => VeoStage.noConfusion hc⟩
      · rename_i link hlink
        split at hrun
        · rename_i m hfet
          simp only [Option.some.injEq, Prod.mk.injEq, Except.error.injEq] at hrun
          obtain ⟨htr, hst, hm⟩ := hrun
          subst htr hst hm
          exact ⟨fun hc => VeoStage.noConfusion hc, fun hc => VeoStage.noConfusion hc,
            fun hc => VeoStage.noConfusion hc, fun _ => ⟨_, hfet⟩,
            fun hc => VeoStage.noConfusion hc⟩
        · rename_i resp hfet
          split at hrun
          · simp at hrun
          · rename_i hnotok
            simp only [Option.some.injEq, Prod.mk.injEq, Except.error.injEq] at hrun
            obtain ⟨htr, hst, hm⟩ := hrun
            subst htr hst hm
            refine ⟨fun hc => VeoStage.noConfusion hc, fun hc => VeoStage.noConfusion hc,
              fun hc => VeoStage.noConfusion hc, fun hc => VeoStage.noConfusion hc,
              fun _ => ⟨_, resp, hfet, ?_, rfl⟩⟩
            cases hb : resp.ok
            · rfl
            · exact absurd hb hnotok

/-- With an API key present, a completed call is the catch-classified image
of the `try`-block run, over the same poll trace. -/
theorem genT_runTry (env : VeoEnv) (k : String) (w h : ℚ) (fuel : Nat)
    (tr : List PollEvent) (res : Except String String)
    (hk : env.apiKey = some k)
    (hg : generateVideoFromFrameT env w h fuel = some (tr, res)) :
    ∃ r0, runTry env k w h fuel = some (tr, r0)
      ∧ res = (match r0 with
               | .ok b => .ok b
               | .error (_, m) => .error (classifyCaught m)) := by
  unfold generateVideoFromFrameT at hg
  rw [hk] at hg
  cases hrt : runTry env k w h fuel with
  | none =>
    simp only [hrt] at hg
    exact Option.noConfusion hg
  | some p =>
    rcases p with ⟨tr2, r0⟩
    cases r0 with
    | ok b =>
      simp only [hrt, Option.some.injEq, Prod.mk.injEq] at hg
      obtain ⟨htr, hres⟩ := hg
      subst htr
      subst hres
      exact ⟨.ok b, rfl, rfl⟩
    | error e =>
      rcases e with ⟨st, m⟩
      simp only [hrt, Option.some.injEq, Prod.mk.injEq] at hg
      obtain ⟨htr, hres⟩ := hg
      subst htr
      subst hres
      exact ⟨.error (st, m), rfl, rfl⟩

/-- Claim C3 (confirmed): assuming network-level `fetch` failures never carry
the service's entity-not-found text, a completed `generateVideoFromFrame`
call surfaces `API_KEY_INVALID` exactly when the try block ended with an
error whose message contains the entity-not-found marker and that error came
from the submission call or from a polling query. -/
theorem C3_entity_not_found (env : VeoEnv) (w h : ℚ) (fuel : Nat) (k : String)
    (tr : List PollEvent) (res : Except String String)
    (hk : env.apiKey = some k)
    (hg : generateVideoFromFrameT env w h fuel = some (tr, res))
    (hfetch : ∀ link msg, env.fetchRes link = .error msg →
        strIncludes msg entityMarker = false) :
    res = .error "API_KEY_INVALID" ↔
      ∃ st msg, runTry env k w h fuel = some (tr, .error (st, msg))
        ∧ strIncludes msg entityMarker = true
        ∧ (st = VeoStage.submit ∨ st = VeoStage.poll) := by
  obtain ⟨r0, hrt, hres⟩ := genT_runTry env k w h fuel tr res hk hg
  cases r0 with
  | ok b =>
    subst hres
    constructor
    · intro hc
      exact absurd hc (by simp)
    · rintro ⟨st, msg, hrt2, -, -⟩
      rw [hrt] at hrt2
      simp at hrt2
  | error e =>
    rcases e with ⟨st, m⟩
    subst hres
    constructor
    · intro hc
      have hclass : classifyCaught m = "API_KEY_INVALID" := by
        simpa using hc
      have hmark : strIncludes m entityMarker = true := by
        cases hb : strIncludes m entityMarker
        · rw [classifyCaught, hb] at hclass
          simp at hclass
        · rfl
      have hsrc := runTry_error_src env k w h fuel tr st m hrt
      refine ⟨st, m, hrt, hmark, ?_⟩
      cases st with
      | submit => exact Or.inl rfl
      | poll => exact Or.inr rfl
      | missingLink =>
        have hm := hsrc.2.2.1 rfl
        rw [hm] at hmark
        rw [missingLinkMsg_no_marker] at hmark
        exact Bool.noConfusion hmark
      | fetch =>
        obtain ⟨link, hlink⟩ := hsrc.2.2.2.1 rfl
        rw [hfetch link m hlink] at hmark
        exact Bool.noConfusion hmark
      | download =>
        obtain ⟨link, resp, -, -, hm⟩ := hsrc.2.2.2.2 rfl
        rw [hm] at hmark
        rw [downloadFailMsg_no_marker] at hmark
        exact Bool.noConfusion hmark
    · rintro ⟨st2, msg2, hrt2, hmark, -⟩
      rw [hrt] at hrt2
      simp only [Option.some.injEq, Prod.mk.injEq, Except.error.injEq] at hrt2
      obtain ⟨-, hm2⟩ := hrt2.2
      rw [← hm2] at hmark
      unfold classifyCaught
      simp [hmark]

/-- Witness for C3: a submission that throws the service's entity-not-found
message is surfaced as `API_KEY_INVALID`, i.e. the classification is
non-vacuous. -/
theorem C3_entity_not_found_witness :
    ∃ st msg, runTry envC3w "k" 16 9 0 = some ([], .error (st, msg))
      ∧ strIncludes msg entityMarker = true
      ∧ (st = VeoStage.submit ∨ st = VeoStage.poll) :=
  (C3_entity_not_found envC3w 16 9 0 "k" [] (.error "API_KEY_INVALID") rfl rfl
    (fun _ _ hc => Except.noConfusion hc)).mp rfl

/-- Counterexample for C5: a done job with no download URI does not surface
the missing-result error to the caller — the call surfaces the generic Veo
failure message instead, because the internal throw is swallowed by the
function's own catch handler. -/
theorem C5_reclassified_counterexample :
    generateVideoFromFrame envC5x 16 9 1
        = some (.error "Failed to process video with Veo API.")
      ∧ "Failed to process video with Veo API." ≠ missingLinkMsg := by
  exact ⟨rfl, by decide⟩

/-- Claim C5 (corrected): when the done job exposes no download URI the code
throws the missing-result error internally, and when the download response is
non-success it throws internally an error carrying the response status (the
body is only logged, not carried); both are then caught by the function's own
handler and surfaced to the caller as the generic Veo failure message. -/
theorem C5_internal_errors (env : VeoEnv) (k : String) (w h : ℚ) (fuel : Nat)
    (tr : List PollEvent) (st : VeoStage) (msg : String)
    (hk : env.apiKey = some k)
    (hrun : runTry env k w h fuel = some (tr, .error (st, msg))) :
    (st = VeoStage.missingLink → msg = missingLinkMsg
      ∧ generateVideoFromFrame env w h fuel
          = some (.error "Failed to process video with Veo API."))
    ∧ (st = VeoStage.download →
        (∃ link resp, env.fetchRes link = .ok resp ∧ resp.ok = false
          ∧ msg = downloadFailMsg resp.status)
        ∧ generateVideoFromFrame env w h fuel
            = some (.error "Failed to process video with Veo API.")) := by
  have hsrc := runTry_error_src env k w h fuel tr st msg hrun
  have hgen : generateVideoFromFrame env w h fuel = some (.error (classifyCaught msg)) := by
    unfold generateVideoFromFrame generateVideoFromFrameT
    simp only [hk, hrun]
    rfl
  constructor
  · intro hst
    have hm := hsrc.2.2.1 hst
    subst hm
    refine ⟨rfl, ?_⟩
    rw [hgen]
    unfold classifyCaught
    rw [missingLinkMsg_no_marker]
    rfl
  · intro hst
    obtain ⟨link, resp, hfet, hok, hm⟩ := hsrc.2.2.2.2 hst
    subst hm
    refine ⟨⟨link, resp, hfet, hok, rfl⟩, ?_⟩
    rw [hgen]
    unfold classifyCaught
    rw [downloadFailMsg_no_marker]
    rfl

/-- Witness for C5: on a done job without a download URI the internal message
is the missing-result one and the caller sees the generic failure. -/
theorem C5_internal_errors_witness :
    missingLinkMsg = missingLinkMsg
      ∧ generateVideoFromFrame envC5w 16 9 1
          = some (.error "Failed to process video with Veo API.") :=
  (C5_internal_errors envC5w "k" 16 9 1 [] VeoStage.missingLink missingLinkMsg
    rfl rfl).1 rfl

/-! Section: Lemmas about the polling loop -/

/-- A polling run that ends by returning an operation returns a done one. -/
theorem stepsOk_done (next : Nat → Except String VeoOp) :
    ∀ (n i : Nat) (op opF : VeoOp), stepsOk next i op n (.ok opF) → opF.done = true := by
  intro n
  induction n with
  | zero =>
    intro i op opF h
    obtain ⟨hd, hres⟩ := h
    injection hres with h3
    rw [h3]
    exact hd
  | succ n ih =>
    intro i op opF h
    obtain ⟨hd, h2⟩ := h
    split at h2
    · exact Except.noConfusion h2.2
    · exact ih _ _ _ h2

/-- A polling run starting on a not-yet-done operation issues at least one
query. -/
theorem stepsOk_pos (next : Nat → Except String VeoOp) (n i : Nat) (op : VeoOp)
    (res : Except String VeoOp) (h : stepsOk next i op n res)
    (hnd : op.done = false) : 1 ≤ n := by
  cases n with
  | zero =>
    obtain ⟨hd, -⟩ := h
    rw [hnd] at hd
    exact Bool.noConfusion hd
  | succ n => exact Nat.succ_le_succ (Nat.zero_le n)

/-- Every query of a polling run is issued while the current operation is not
done: querying stops strictly when the status becomes done. -/
theorem stepsOk_before (next : Nat → Except String VeoOp) :
    ∀ (n i : Nat) (op : VeoOp) (res : Except String VeoOp),
    stepsOk next i op n res →
    ∀ j, j < n → ∃ opj, opSeqAt next i op j = some opj ∧ opj.done = false := by
  intro n
  induction n with
  | zero => intro i op res h j hj; exact absurd hj (Nat.not_lt_zero j)
  | succ n ih =>
    intro i op res h j hj
    obtain ⟨hd, h2⟩ := h
    cases j with
    | zero => exact ⟨op, rfl, hd⟩
    | succ j2 =>
      split at h2
      · obtain ⟨hn0, -⟩ := h2
        subst hn0
        exact absurd hj (by omega)
      · rename_i op2 heq
        have hj2 : j2 < n := Nat.lt_of_succ_lt_succ hj
        obtain ⟨opj, hseq, hdone⟩ := ih (i + 1) op2 res h2 j2 hj2
        refine ⟨opj, ?_, hdone⟩
        unfold opSeqAt
        simp only [heq]
        exact hseq

/-- A terminating polling run has the shape of `n` suspension-query pairs and
satisfies the query-by-query characterisation `stepsOk`. -/
theorem pollLoop_char (next : Nat → Except String VeoOp) :
    ∀ (fuel i : Nat) (op : VeoOp) (tr : List PollEvent) (res : Except String VeoOp),
    pollLoop next fuel i op = some (tr, res) →
    ∃ n, tr = (List.replicate n [PollEvent.sleep 10000, PollEvent.query]).flatten
      ∧ stepsOk next i op n res := by
  intro fuel
  induction fuel with
  | zero =>
    intro i op tr res h
    unfold pollLoop at h
    split at h
    · rename_i hdone
      simp only [Option.some.injEq, Prod.mk.injEq] at h
      obtain ⟨htr, hres⟩ := h
      subst htr
      subst hres
      exact ⟨0, rfl, hdone, rfl⟩
    · exact Option.noConfusion h
  | succ fuel ih =>
    intro i op tr res h
    unfold pollLoop at h
    split at h
    · rename_i hdone
      simp only [Option.some.injEq, Prod.mk.injEq] at h
      obtain ⟨htr, hres⟩ := h
      subst htr
      subst hres
      exact ⟨0, rfl, hdone, rfl⟩
    · rename_i hdone
      have hdf : op.done = false := by
        cases hb : op.done
        · rfl
        · exact absurd hb hdone
      split at h
      · rename_i msg heq
        simp only [Option.some.injEq, Prod.mk.injEq] at h
        obtain ⟨htr, hres⟩ := h
        subst htr
        subst hres
        refine ⟨1, rfl, hdf, ?_⟩
        simp [heq]
      · rename_i op2 heq
        split at h
        · exact Option.noConfusion h
        · rename_i tr2 res2 hrec
          simp only [Option.some.injEq, Prod.mk.injEq] at h
          obtain ⟨htr, hres⟩ := h
          subst htr
          subst hres
          obtain ⟨n, htr2, hsteps⟩ := ih (i + 1) op2 tr2 res2 hrec
          refine ⟨n + 1, ?_, hdf, ?_⟩
          · rw [List.replicate_succ, List.flatten_cons, htr2]
            rfl
          · simp only [heq]
            exact hsteps

/-- The query count of a trace of `n` suspension-query pairs is `n`. -/
theorem countQueries_replicate (n : Nat) :
    countQueries ((List.replicate n [PollEvent.sleep 10000, PollEvent.query]).flatten) = n := by
  induction n with
  | zero => rfl
  | succ n ih =>
    rw [List.replicate_succ, List.flatten_cons]
    unfold countQueries at ih ⊢
    rw [List.countP_append, ih]
    have h1 : List.countP
        (fun e => match e with | PollEvent.query => true | _ => false)
        [PollEvent.sleep 10000, PollEvent.query] = 1 := rfl
    rw [h1]
    omega

/-- With a successful submission, a completed call's poll trace is exactly a
terminating run of the polling loop. -/
theorem runTry_poll (env : VeoEnv) (k : String) (w h : ℚ) (fuel : Nat)
    (tr : List PollEvent) (r0 : Except (VeoStage × String) String) (op0 : VeoOp)
    (hsub : env.submit (deriveAspect w h) = .ok op0)
    (hrt : runTry env k w h fuel = some (tr, r0)) :
    ∃ pres, pollLoop env.pollRes fuel 0 op0 = some (tr, pres) := by
  unfold runTry at hrt
  simp only [hsub] at hrt
  cases hpoll : pollLoop env.pollRes fuel 0 op0 with
  | none =>
    rw [hpoll] at hrt
    exact Option.noConfusion hrt
  | some p =>
    rcases p with ⟨tr2, pres⟩
    refine ⟨pres, ?_⟩
    have htr : tr2 = tr := by
      cases pres with
      | error m =>
        simp only [hpoll] at hrt
        simp only [Option.some.injEq, Prod.mk.injEq] at hrt
        exact hrt.1
      | ok opF =>
        simp only [hpoll] at hrt
        repeat' split at hrt
        all_goals simp only [Option.some.injEq, Prod.mk.injEq] at hrt
        all_goals exact hrt.1
    rw [htr]

/-- Claim C1 (corrected): for a completed call with a successful submission,
the poll trace is `n` suspension-query pairs — each status query is directly
preceded by the fixed 10000 ms suspension; at least one query is issued
whenever the submitted job was not already done; a run that ends by returning
an operation returns a done one; and every query is issued while the status
is not yet done, so no query is ever issued after the status becomes done. -/
theorem C1_poll_protocol (env : VeoEnv) (w h : ℚ) (fuel : Nat) (k : String)
    (tr : List PollEvent) (res : Except String String) (op0 : VeoOp)
    (hk : env.apiKey = some k)
    (hsub : env.submit (deriveAspect w h) = .ok op0)
    (hg : generateVideoFromFrameT env w h fuel = some (tr, res)) :
    ∃ n pres,
      pollLoop env.pollRes fuel 0 op0 = some (tr, pres)
      ∧ tr = (List.replicate n [PollEvent.sleep 10000, PollEvent.query]).flatten
      ∧ countQueries tr = n
      ∧ (op0.done = false → 1 ≤ n)
      ∧ (∀ opF, pres = .ok opF → opF.done = true)
      ∧ (∀ j, j < n → ∃ opj, opSeqAt env.pollRes 0 op0 j = some opj
          ∧ opj.done = false) := by
  obtain ⟨r0, hrt, -⟩ := genT_runTry env k w h fuel tr res hk hg
  obtain ⟨pres, hpoll⟩ := runTry_poll env k w h fuel tr r0 op0 hsub hrt
  obtain ⟨n, htr, hsteps⟩ := pollLoop_char env.pollRes fuel 0 op0 tr pres hpoll
  refine ⟨n, pres, hpoll, htr, ?_, ?_, ?_, ?_⟩
  · rw [htr]
    exact countQueries_replicate n
  · exact fun hnd => stepsOk_pos env.pollRes n 0 op0 pres hsteps hnd
  · intro opF hres
    subst hres
    exact stepsOk_done env.pollRes n 0 op0 opF hsteps
  · exact stepsOk_before env.pollRes n 0 op0 pres hsteps

/-- Counterexample for C1: when the submission itself returns a done
operation, the whole call completes successfully with an empty poll trace —
zero status queries are issued, refuting "at least one status query is issued
after job submission" for every run. -/
theorem C1_zero_queries_counterexample :
    generateVideoFromFrameT envC1x 16 9 5 = some ([], .ok "vid")
      ∧ countQueries [] = 0 :=
  ⟨rfl, rfl⟩

/-- Witness for C1: a pending submission followed by one done poll yields the
trace of exactly one suspension-query pair. -/
theorem C1_poll_protocol_witness :
    ∃ n pres,
      pollLoop envC1w.pollRes 3 0 opPending
          = some ([PollEvent.sleep 10000, PollEvent.query], pres)
      ∧ [PollEvent.sleep 10000, PollEvent.query]
          = (List.replicate n [PollEvent.sleep 10000, PollEvent.query]).flatten
      ∧ countQueries [PollEvent.sleep 10000, PollEvent.query] = n
      ∧ (opPending.done = false → 1 ≤ n)
      ∧ (∀ opF, pres = .ok opF → opF.done = true)
      ∧ (∀ j, j < n → ∃ opj, opSeqAt envC1w.pollRes 0 opPending j = some opj
          ∧ opj.done = false) :=
  C1_poll_protocol envC1w 16 9 3 "k" [PollEvent.sleep 10000, PollEvent.query]
    (.ok "vid") opPending rfl rfl rfl

/-! Section: Lemmas about the frame-extraction event machine -/

/-- A commit that yields a resolved value either kept an earlier settlement or
settled the pending promise with the new value. -/
theorem commitOutcome_ok (old : Option (Except String FrameResult))
    (new : Except String FrameResult) (r : FrameResult)
    (h : commitOutcome old new = some (.ok r)) :
    old = some (.ok r) ∨ (old = none ∧ new = .ok r) := by
  cases old with
  | none =>
    right
    refine ⟨rfl, ?_⟩
    injection h
  | some x =>
    left
    injection h with h2
    rw [h2]

/-- Once `currentTime` has been set to `0.1` it stays there. -/
theorem stepEvent_currentTime (c : ExtractCtx) (s : ExtractState) (e : MediaEvent)
    (h : s.currentTime = 1 / 10) : (stepEvent c s e).currentTime = 1 / 10 := by
  cases e with
  | loadeddata => rfl
  | seeked =>
    simp only [stepEvent]
    split
    · exact h
    · split
      · exact h
      · exact h
  | mediaError msg =>
    simp only [stepEvent]
    split
    · exact h
    · exact h
  | playRejected msg =>
    simp only [stepEvent]
    split
    · exact h
    · exact h

/-- With `currentTime` at `0.1`, one event dispatch preserves the property
that any resolved frame carries the native dimensions and capture time
`0.1`. -/
theorem stepEvent_dim (c : ExtractCtx) (s : ExtractState) (e : MediaEvent)
    (hct : s.currentTime = 1 / 10)
    (hinv : ∀ r, s.outcome = some (.ok r) →
      r.width = c.videoWidth ∧ r.height = c.videoHeight ∧ r.captureTime = 1 / 10) :
    ∀ r, (stepEvent c s e).outcome = some (.ok r) →
      r.width = c.videoWidth ∧ r.height = c.videoHeight ∧ r.captureTime = 1 / 10 := by
  intro r h
  cases e with
  | loadeddata => exact hinv r h
  | seeked =>
    simp only [stepEvent] at h
    split at h
    · exact hinv r h
    · split at h
      · rcases commitOutcome_ok _ _ _ h with hold | ⟨-, hnew⟩
        · exact hinv r hold
        · injection hnew with h2
          rw [← h2]
          exact ⟨rfl, rfl, hct⟩
      · rcases commitOutcome_ok _ _ _ h with hold | ⟨-, hnew⟩
        · exact hinv r hold
        · exact Except.noConfusion hnew
  | mediaError msg =>
    simp only [stepEvent] at h
    split at h
    · exact hinv r h
    · rcases commitOutcome_ok _ _ _ h with hold | ⟨-, hnew⟩
      · exact hinv r hold
      · exact Except.noConfusion hnew
  | playRejected msg =>
    simp only [stepEvent] at h
    split at h
    · exact hinv r h
    · rcases commitOutcome_ok _ _ _ h with hold | ⟨-, hnew⟩
      · exact hinv r hold
      · exact Except.noConfusion hnew

/-- After a `loadeddata`, any further events keep the resolved-frame
property. -/
theorem foldl_dim (c : ExtractCtx) : ∀ (evts : List MediaEvent) (s : ExtractState),
    s.currentTime = 1 / 10 →
    (∀ r, s.outcome = some (.ok r) →
      r.width = c.videoWidth ∧ r.height = c.videoHeight ∧ r.captureTime = 1 / 10) →
    ∀ r, (evts.foldl (stepEvent c) s).outcome = some (.ok r) →
      r.width = c.videoWidth ∧ r.height = c.videoHeight ∧ r.captureTime = 1 / 10 := by
  intro evts
  induction evts with
  | nil => exact fun s _ hinv => hinv
  | cons e evts ih =>
    intro s hct hinv
    simp only [List.foldl_cons]
    exact ih (stepEvent c s e) (stepEvent_currentTime c s e hct)
      (stepEvent_dim c s e hct hinv)

/-- Before the first `seeked`, while `currentTime` is still `0`, the
resolved-frame property is maintained along any event sequence in which a
`loadeddata` arrives before the first `seeked`. -/
theorem foldl_dim_pre (c : ExtractCtx) : ∀ (evts : List MediaEvent) (s : ExtractState),
    loadBeforeSeek evts = true →
    s.currentTime = 0 →
    (∀ r, s.outcome = some (.ok r) →
      r.width = c.videoWidth ∧ r.height = c.videoHeight ∧ r.captureTime = 1 / 10) →
    ∀ r, (evts.foldl (stepEvent c) s).outcome = some (.ok r) →
      r.width = c.videoWidth ∧ r.height = c.videoHeight ∧ r.captureTime = 1 / 10 := by
  intro evts
  induction evts with
  | nil => exact fun s _ _ hinv => hinv
  | cons e evts ih =>
    intro s hvalid hct hinv
    simp only [List.foldl_cons]
    cases e with
    | loadeddata =>
      exact foldl_dim c evts (stepEvent c s MediaEvent.loadeddata) rfl hinv
    | seeked => exact Bool.noConfusion hvalid
    | mediaError msg =>
      refine ih (stepEvent c s (MediaEvent.mediaError msg)) hvalid ?_ ?_
      · simp only [stepEvent]
        split
        · exact hct
        · exact hct
      · intro r h
        simp only [stepEvent] at h
        split at h
        · exact hinv r h
        · rcases commitOutcome_ok _ _ _ h with hold | ⟨-, hnew⟩
          · exact hinv r hold
          · exact Except.noConfusion hnew
    | playRejected msg =>
      refine ih (stepEvent c s (MediaEvent.playRejected msg)) hvalid ?_ ?_
      · simp only [stepEvent]
        split
        · exact hct
        · exact hct
      · intro r h
        simp only [stepEvent] at h
        split at h
        · exact hinv r h
        · rcases commitOutcome_ok _ _ _ h with hold | ⟨-, hnew⟩
          · exact hinv r hold
          · exact Except.noConfusion hnew

/-- Claim C6 (confirmed): on any event sequence where the video loads before
the first seek completes (the behaviour of every valid video input), a
successfully extracted frame carries the video's native pixel dimensions and
is captured at offset `0.1` — a small positive offset, never exactly `0`. -/
theorem C6_frame_dimensions (c : ExtractCtx) (evts : List MediaEvent) (r : FrameResult)
    (hvalid : loadBeforeSeek evts = true)
    (houtcome : (runExtract c evts).outcome = some (.ok r)) :
    r.width = c.videoWidth ∧ r.height = c.videoHeight ∧ r.captureTime = 1 / 10
      ∧ 0 < r.captureTime ∧ r.captureTime ≠ 0 := by
  have hmain := foldl_dim_pre c evts initExtract hvalid rfl
    (fun r2 h2 => Option.noConfusion h2) r houtcome
  obtain ⟨hw, hh, hcap⟩ := hmain
  refine ⟨hw, hh, hcap, ?_, ?_⟩
  · rw [hcap]
    norm_num
  · rw [hcap]
    norm_num

/-- Witness for C6: a load followed by a completed seek on a 1920 by 1080
video resolves a frame with those dimensions captured at `0.1`. -/
theorem C6_frame_dimensions_witness :
    (⟨"F64", "image/jpeg", 1920, 1080, 1 / 10⟩ : FrameResult).width = ctxC6w.videoWidth
    ∧ (⟨"F64", "image/jpeg", 1920, 1080, 1 / 10⟩ : FrameResult).height = ctxC6w.videoHeight
    ∧ (⟨"F64", "image/jpeg", 1920, 1080, 1 / 10⟩ : FrameResult).captureTime = 1 / 10
    ∧ 0 < (⟨"F64", "image/jpeg", 1920, 1080, 1 / 10⟩ : FrameResult).captureTime
    ∧ (⟨"F64", "image/jpeg", 1920, 1080, 1 / 10⟩ : FrameResult).captureTime ≠ 0 :=
  C6_frame_dimensions ctxC6w [MediaEvent.loadeddata, MediaEvent.seeked]
    ⟨"F64", "image/jpeg", 1920, 1080, 1 / 10⟩ rfl rfl

/-- One event dispatch never un-settles the promise: a settled value is
kept. -/
theorem stepEvent_outcome_mono (c : ExtractCtx) (s : ExtractState) (e : MediaEvent)
    (r : Except String FrameResult) (h : s.outcome = some r) :
    (stepEvent c s e).outcome = some r := by
  cases e with
  | loadeddata => exact h
  | seeked =>
    simp only [stepEvent]
    split
    · exact h
    · split
      · simp only [commitOutcome, h]
      · simp only [commitOutcome, h]
  | mediaError msg =>
    simp only [stepEvent]
    split
    · exact h
    · simp only [commitOutcome, h]
  | playRejected msg =>
    simp only [stepEvent]
    split
    · exact h
    · simp only [commitOutcome, h]

/-- Any further events keep a settled value. -/
theorem foldl_outcome_mono (c : ExtractCtx) : ∀ (evts : List MediaEvent)
    (s : ExtractState) (r : Except String FrameResult), s.outcome = some r →
    (evts.foldl (stepEvent c) s).outcome = some r := by
  intro evts
  induction evts with
  | nil => exact fun s r h => h
  | cons e evts ih =>
    intro s r h
    simp only [List.foldl_cons]
    exact ih (stepEvent c s e) r (stepEvent_outcome_mono c s e r h)

/-- One event dispatch preserves the guard accounting: while the guard is
unset no seeked body has run, and the seeked body has run at most once. -/
theorem stepEvent_guard (c : ExtractCtx) (s : ExtractState) (e : MediaEvent)
    (h0 : s.resolved = false → s.seekedRuns = 0) (h1 : s.seekedRuns ≤ 1) :
    ((stepEvent c s e).resolved = false → (stepEvent c s e).seekedRuns = 0)
    ∧ (stepEvent c s e).seekedRuns ≤ 1 := by
  cases e with
  | loadeddata => exact ⟨h0, h1⟩
  | seeked =>
    simp only [stepEvent]
    split
    · exact ⟨h0, h1⟩
    · rename_i hres
      have hz : s.seekedRuns = 0 := by
        cases hb : s.resolved
        · exact h0 hb
        · exact absurd hb hres
      split
      · refine ⟨fun hc => Bool.noConfusion hc, ?_⟩
        simp [hz]
      · refine ⟨fun hc => Bool.noConfusion hc, ?_⟩
        simp [hz]
  | mediaError msg =>
    simp only [stepEvent]
    split
    · exact ⟨h0, h1⟩
    · exact ⟨h0, h1⟩
  | playRejected msg =>
    simp only [stepEvent]
    split
    · exact ⟨h0, h1⟩
    · exact ⟨h0, h1⟩

/-- Any event sequence preserves the guard accounting. -/
theorem foldl_guard (c : ExtractCtx) : ∀ (evts : List MediaEvent) (s : ExtractState),
    (s.resolved = false → s.seekedRuns = 0) → s.seekedRuns ≤ 1 →
    ((evts.foldl (stepEvent c) s).resolved = false →
      (evts.foldl (stepEvent c) s).seekedRuns = 0)
    ∧ (evts.foldl (stepEvent c) s).seekedRuns ≤ 1 := by
  intro evts
  induction evts with
  | nil => exact fun s h0 h1 => ⟨h0, h1⟩
  | cons e evts ih =>
    intro s h0 h1
    simp only [List.foldl_cons]
    obtain ⟨g0, g1⟩ := stepEvent_guard c s e h0 h1
    exact ih (stepEvent c s e) g0 g1

/-- Counterexample for C7: deliver a media error and then the seek-completed
event — the error handler body runs (rejecting the promise) without setting
the guard, so the seeked body runs too: two completion-handler bodies
execute, refuting "at most one completion handler body executes". -/
theorem C7_guard_counterexample :
    ¬ ((runExtract ctxC7x [MediaEvent.mediaError "boom", MediaEvent.seeked]).settleRuns ≤ 1) := by
  decide

/-- Claim C7 (corrected): the guard makes the `onseeked` completion body run
at most once, and the promise latches — once an extraction result is
committed, delivering any further events leaves it unchanged, so exactly one
extraction result is committed per call; but the error and play-rejection
handlers do not set the guard, so their bodies may run more than once. -/
theorem C7_single_commit (c : ExtractCtx) (evts evts2 : List MediaEvent)
    (r : Except String FrameResult) :
    (runExtract c evts).seekedRuns ≤ 1
    ∧ ((runExtract c evts).outcome = some r →
        (runExtract c (evts ++ evts2)).outcome = some r) := by
  constructor
  · exact (foldl_guard c evts initExtract (fun _ => rfl) (Nat.zero_le 1)).2
  · intro h
    show ((evts ++ evts2).foldl (stepEvent c) initExtract).outcome = some r
    rw [List.foldl_append]
    exact foldl_outcome_mono c evts2 (runExtract c evts) r h

/-- Witness for C7: after a successful load-seek extraction a late media
error does not change the committed result. -/
theorem C7_single_commit_witness :
    (runExtract ctxC7w [MediaEvent.loadeddata, MediaEvent.seeked]).seekedRuns ≤ 1
    ∧ (runExtract ctxC7w ([MediaEvent.loadeddata, MediaEvent.seeked]
        ++ [MediaEvent.mediaError "late"])).outcome
      = some (.ok ⟨"F64", "image/jpeg", 640, 480, 1 / 10⟩) :=
  ⟨(C7_single_commit ctxC7w [MediaEvent.loadeddata, MediaEvent.seeked]
      [MediaEvent.mediaError "late"] (.ok ⟨"F64", "image/jpeg", 640, 480, 1 / 10⟩)).1,
   (C7_single_commit ctxC7w [MediaEvent.loadeddata, MediaEvent.seeked]
      [MediaEvent.mediaError "late"] (.ok ⟨"F64", "image/jpeg", 640, 480, 1 / 10⟩)).2 rfl⟩
